import Mathlib

/-!
Verification of the session-navigation engine of the `linuxbrowser` repository
(`BrowserView`): URL/query classification, the back/forward history stack,
the deterministic mock search-result synthesizer, the download-progress tick,
bookmark toggling and import, and the persistent keyed store.

The definitions below are shallow embeddings of the TypeScript source.
JavaScript string/number builtins used by the source (`trim`, `includes`,
`split`, `encodeURIComponent`, `charCodeAt`, `|0`, `JSON.parse`,
`JSON.stringify`, `new URL(...).hostname`) are modelled explicitly; machine
arithmetic (`hash |= 0`) is modelled on `Int` with explicit wraparound.
-/

/-! ### Models of JavaScript string builtins -/

/-- The JavaScript whitespace set used by `String.prototype.trim` and the
regex class `\s` (WhiteSpace ∪ LineTerminator). -/
def jsIsWs (c : Char) : Bool :=
  c == ' ' || c == '\t' || c == '\n' || c == '\r' ||
  c == Char.ofNat 0x0b || c == Char.ofNat 0x0c || c == Char.ofNat 0xa0 ||
  c == Char.ofNat 0x1680 ||
  (0x2000 ≤ c.toNat && c.toNat ≤ 0x200a) ||
  c == Char.ofNat 0x2028 || c == Char.ofNat 0x2029 ||
  c == Char.ofNat 0x202f || c == Char.ofNat 0x205f ||
  c == Char.ofNat 0x3000 || c == Char.ofNat 0xfeff

/-- Model of `input.trim()`. -/
def jsTrim (s : String) : String :=
  String.mk (((s.data.dropWhile jsIsWs).reverse.dropWhile jsIsWs).reverse)

/-- Substring search on character lists (leftmost match). -/
def listContainsSub : List Char → List Char → Bool
  | hay, pat =>
    if pat.isPrefixOf hay then true
    else
      match hay with
      | [] => false
      | _ :: t => listContainsSub t pat

/-- Model of `s.includes(pat)` for a string pattern. -/
def hasSubstr (s pat : String) : Bool :=
  listContainsSub s.data pat.data

/-- Model of `s.includes(c)` for a single character. -/
def strContains (s : String) (c : Char) : Bool :=
  s.data.contains c

/-- Model of `s.startsWith(p)`. -/
def strStartsWith (s p : String) : Bool :=
  p.data.isPrefixOf s.data

/-- Uppercase hexadecimal digit (for percent-encoding). -/
def hexDigitU (n : Nat) : Char :=
  if n < 10 then Char.ofNat (48 + n) else Char.ofNat (55 + n)

/-- UTF-8 bytes of a Unicode code point. -/
def utf8Bytes (n : Nat) : List Nat :=
  if n < 0x80 then [n]
  else if n < 0x800 then [0xc0 + n / 64, 0x80 + n % 64]
  else if n < 0x10000 then [0xe0 + n / 4096, 0x80 + n / 64 % 64, 0x80 + n % 64]
  else [0xf0 + n / 262144, 0x80 + n / 4096 % 64, 0x80 + n / 64 % 64, 0x80 + n % 64]

/-- The characters `encodeURIComponent` leaves unescaped:
`A-Z a-z 0-9 - _ . ! ~ * ' ( )`. -/
def uriUnreserved (c : Char) : Bool :=
  (65 ≤ c.toNat && c.toNat ≤ 90) || (97 ≤ c.toNat && c.toNat ≤ 122) ||
  (48 ≤ c.toNat && c.toNat ≤ 57) ||
  c == '-' || c == '_' || c == '.' || c == '!' || c == '~' || c == '*' ||
  c.toNat == 39 || c == '(' || c == ')'

/-- Model of `encodeURIComponent`: unreserved characters pass through, all
others are written as uppercase `%XX` escapes of their UTF-8 bytes. -/
def encodeURIComponent (s : String) : String :=
  String.mk <| s.data.foldr
    (fun c acc =>
      (if uriUnreserved c then [c]
       else (utf8Bytes c.toNat).flatMap
         (fun b => ['%', hexDigitU (b / 16), hexDigitU (b % 16)])) ++ acc)
    []

/-- Value of a hexadecimal digit character, if any. -/
def hexVal (c : Char) : Option Nat :=
  if 48 ≤ c.toNat && c.toNat ≤ 57 then some (c.toNat - 48)
  else if 65 ≤ c.toNat && c.toNat ≤ 70 then some (c.toNat - 55)
  else if 97 ≤ c.toNat && c.toNat ≤ 102 then some (c.toNat - 87)
  else none

/-- Model of `decodeURIComponent` on character lists: `%XX` escape groups are
decoded as UTF-8 byte sequences (1 to 4 bytes); on the malformed inputs where
the builtin would throw a `URIError`, the characters are kept literally (no
theorem below depends on those inputs). The fuel argument only bounds the
recursion; every step consumes at least one character. -/
def decodeChars : Nat → List Char → List Char
  | 0, cs => cs
  | _ + 1, [] => []
  | fuel + 1, '%' :: h1 :: h2 :: rest =>
    match hexVal h1, hexVal h2 with
    | some a, some b =>
      let byte1 := a * 16 + b
      if byte1 < 0x80 then Char.ofNat byte1 :: decodeChars fuel rest
      else if 0xc0 ≤ byte1 && byte1 < 0xe0 then
        match rest with
        | '%' :: h3 :: h4 :: rest2 =>
          match hexVal h3, hexVal h4 with
          | some a2, some b2 =>
            Char.ofNat ((byte1 - 0xc0) * 64 + (a2 * 16 + b2 - 0x80)) ::
              decodeChars fuel rest2
          | _, _ => '%' :: h1 :: h2 :: decodeChars fuel rest
        | _ => '%' :: h1 :: h2 :: decodeChars fuel rest
      else if 0xe0 ≤ byte1 && byte1 < 0xf0 then
        match rest with
        | '%' :: h3 :: h4 :: '%' :: h5 :: h6 :: rest2 =>
          match hexVal h3, hexVal h4, hexVal h5, hexVal h6 with
          | some a2, some b2, some a3, some b3 =>
            Char.ofNat ((byte1 - 0xe0) * 4096 + (a2 * 16 + b2 - 0x80) * 64 +
              (a3 * 16 + b3 - 0x80)) :: decodeChars fuel rest2
          | _, _, _, _ => '%' :: h1 :: h2 :: decodeChars fuel rest
        | _ => '%' :: h1 :: h2 :: decodeChars fuel rest
      else
        match rest with
        | '%' :: h3 :: h4 :: '%' :: h5 :: h6 :: '%' :: h7 :: h8 :: rest2 =>
          match hexVal h3, hexVal h4, hexVal h5, hexVal h6, hexVal h7, hexVal h8 with
          | some a2, some b2, some a3, some b3, some a4, some b4 =>
            Char.ofNat ((byte1 - 0xf0) * 262144 + (a2 * 16 + b2 - 0x80) * 4096 +
              (a3 * 16 + b3 - 0x80) * 64 + (a4 * 16 + b4 - 0x80)) ::
              decodeChars fuel rest2
          | _, _, _, _, _, _ => '%' :: h1 :: h2 :: decodeChars fuel rest
        | _ => '%' :: h1 :: h2 :: decodeChars fuel rest
    | _, _ => '%' :: h1 :: h2 :: decodeChars fuel rest
  | fuel + 1, c :: rest => c :: decodeChars fuel rest

/-- Model of `decodeURIComponent`. -/
def decodeURIComponent (s : String) : String :=
  String.mk (decodeChars (s.data.length + 1) s.data)

/-- Worker for `jsSplit`: scan for the next separator occurrence, splitting
greedily left to right. The fuel only bounds the recursion; with a nonempty
separator every step consumes at least one character. -/
def splitGo : Nat → List Char → List Char → List Char → List (List Char)
  | 0, rest, _, cur => [cur.reverse ++ rest]
  | _ + 1, [], _, cur => [cur.reverse]
  | fuel + 1, c :: rest, sep, cur =>
    if sep.isPrefixOf (c :: rest) then
      cur.reverse :: splitGo fuel ((c :: rest).drop sep.length) sep []
    else
      splitGo fuel rest sep (c :: cur)

/-- Model of `s.split(sep)` for a string separator (an empty separator splits
into single characters, as in JavaScript). -/
def jsSplit (s sep : String) : List String :=
  if sep = "" then s.data.map (fun c => String.mk [c])
  else (splitGo (s.data.length + 1) s.data sep.data []).map String.mk

/-! ### The hash-seeded result synthesizer (`generateMockResults`) -/

/-- UTF-16 code units of a string, as `charCodeAt` enumerates them. -/
def utf16Units (s : String) : List Nat :=
  s.data.foldr
    (fun c acc =>
      (if c.toNat < 0x10000 then [c.toNat]
       else [0xd800 + (c.toNat - 0x10000) / 0x400,
             0xdc00 + (c.toNat - 0x10000) % 0x400]) ++ acc)
    []

/-- Wrap an integer to the signed 32-bit range, as `x |= 0` does. -/
def toInt32 (n : Int) : Int :=
  (n + 2 ^ 31) % 2 ^ 32 - 2 ^ 31

/-- One step of the rolling hash: `hash = ((hash << 5) - hash) + c; hash |= 0`.
`hash << 5` is a 32-bit shift, hence the inner wrap. -/
def hashStep (h : Int) (c : Nat) : Int :=
  toInt32 (toInt32 (h * 32) - h + c)

/-- The query hash of `generateMockResults` (a signed 32-bit value). -/
def hashQuery (q : String) : Int :=
  (utf16Units q).foldl hashStep 0

/-- The four fixed label tags. -/
def resultTypes : List String := ["Official", "Wiki", "News", "Blog"]

/-- Model of `query.replace(/\s+/g, '-')`: each maximal whitespace run becomes
a single dash. The Boolean argument records whether the previous character was
whitespace. -/
def collapseWsDash : List Char → Bool → List Char
  | [], _ => []
  | c :: rest, prev =>
    if jsIsWs c then
      (if prev then [] else ['-']) ++ collapseWsDash rest true
    else c :: collapseWsDash rest false

structure SearchResult where
  id : String
  title : String
  url : String
  snippet : String
  ads : Bool
  deriving DecidableEq, Repr, Inhabited

/-- Shallow embedding of `generateMockResults` (the result synthesizer):
seed = `Math.abs(hash)`, 8 slots, per-slot seed = seed + index. -/
def generateMockResults (query : String) : List SearchResult :=
  let seed := (hashQuery query).natAbs
  (List.range 8).map fun i =>
    let resultSeed := seed + i
    { id := Nat.repr i
      title := query ++ " - Result " ++ Nat.repr (i + 1) ++ " (" ++
        resultTypes.getD (resultSeed % resultTypes.length) "" ++ ")"
      url := "https://www.example.com/" ++
        String.mk (collapseWsDash query.data false) ++ "/" ++ Nat.repr i
      snippet := "This is a simulated search result for \"" ++ query ++
        "\". Chimera Browser protects your privacy by stripping trackers from this result before you click."
      ads := (resultSeed % 4) == 0 }

/-! ### The session state machine (navigation controller) -/

inductive Page where
  | newtab
  | search
  | external
  deriving DecidableEq, Repr

/-- The navigation-relevant component state of `BrowserView`:
`url`, the back/forward stack `history` with its index, the active internal
page, the active search query, and the ephemeral search results.
`historyIndex` is kept as an `Int` so that the lower bound of the history
invariant is a real proof obligation, not a typing artifact. -/
structure Session where
  url : String
  history : List String
  historyIndex : Int
  internalPage : Page
  searchQuery : String
  searchResults : List SearchResult
  deriving DecidableEq, Repr

/-- Model of `history.slice(0, e)`: JavaScript slice clamps, and a negative
end index counts from the end of the array. -/
def jsSliceTo (l : List String) (e : Int) : List String :=
  l.take (if 0 ≤ e then e.toNat else ((l.length : Int) + e).toNat)

/-- Model of the `useEffect` that synchronizes `internalPage`, `searchQuery`
and `searchResults` with `url` after every url change: the page variant is
re-derived from the URL shape alone, and mock results are regenerated only
when the current result list is empty. -/
def syncUrl (s : Session) : Session :=
  if s.url = "chimera://newtab" then
    { s with internalPage := .newtab }
  else if strStartsWith s.url "chimera://search" then
    let q := decodeURIComponent ((jsSplit s.url "q=").getD 1 "")
    { s with internalPage := .search, searchQuery := q,
             searchResults :=
               if s.searchResults.length = 0 then generateMockResults q
               else s.searchResults }
  else
    { s with internalPage := .external }

/-- Shallow embedding of `navigate(input)` (lines 240-295 of the source),
with the url-sync effect applied afterwards. The `chimera://` prefix test of
line 259 is subsumed by the scheme-separator test and therefore omitted from
the classification conditions. -/
def navigate (s : Session) (input : String) : Session :=
  let target := jsTrim input
  if target = "chimera://newtab" ∨ target = "" then
    let newHistory := jsSliceTo s.history (s.historyIndex + 1) ++ ["chimera://newtab"]
    syncUrl { s with internalPage := .newtab, url := "chimera://newtab",
                     history := newHistory,
                     historyIndex := (newHistory.length : Int) - 1 }
  else
    let noScheme := hasSubstr target "://" = false
    let hostLike := strContains target '.' ∧ strContains target ' ' = false
    let isSearch := noScheme ∧ ¬ hostLike
    let target2 :=
      if noScheme ∧ hostLike ∧ strStartsWith target "http" = false
      then "https://" ++ target else target
    let finalUrl :=
      if isSearch then "chimera://search?q=" ++ encodeURIComponent target
      else target2
    let s1 :=
      if isSearch then
        { s with internalPage := .search, searchQuery := target,
                 searchResults := generateMockResults target }
      else { s with internalPage := .external }
    let newHistory := jsSliceTo s.history (s.historyIndex + 1) ++ [finalUrl]
    syncUrl { s1 with url := finalUrl, history := newHistory,
                      historyIndex := (newHistory.length : Int) - 1 }

/-- Shallow embedding of `handleBack`. -/
def handleBack (s : Session) : Session :=
  if 0 < s.historyIndex then
    syncUrl { s with historyIndex := s.historyIndex - 1,
                     url := s.history.getD (s.historyIndex - 1).toNat "" }
  else s

/-- Shallow embedding of `handleForward`. -/
def handleForward (s : Session) : Session :=
  if s.historyIndex < (s.history.length : Int) - 1 then
    syncUrl { s with historyIndex := s.historyIndex + 1,
                     url := s.history.getD (s.historyIndex + 1).toNat "" }
  else s

/-- Shallow embedding of the "Reset Browser" action (it also clears the
visited-history log and the download list, which are outside `Session`). -/
def resetBrowser (s : Session) : Session :=
  syncUrl { s with history := ["chimera://newtab"], historyIndex := 0,
                   url := "chimera://newtab" }

/-- The operations that drive the session state machine. -/
inductive Op where
  | nav (input : String)
  | back
  | fwd
  | reset

def step (s : Session) : Op → Session
  | .nav input => navigate s input
  | .back => handleBack s
  | .fwd => handleForward s
  | .reset => resetBrowser s

def run (s : Session) : List Op → Session
  | [] => s
  | op :: ops => run (step s op) ops

/-- The initial persisted defaults: sentinel url, one-element stack, index 0. -/
def initSession : Session :=
  { url := "chimera://newtab", history := ["chimera://newtab"], historyIndex := 0,
    internalPage := .newtab, searchQuery := "", searchResults := [] }

/-! ### The bookmark manager -/

structure Bookmark where
  id : String
  title : String
  url : String
  createdAt : Int
  deriving DecidableEq, Repr

/-- Model of `new URL(target).hostname` for the URL shapes this application
produces (the URL builtin is part of the platform, not of the repository):
a string without a scheme separator fails to parse (`none`, the builtin
throws); otherwise the host is the authority part, i.e. the text after
`"://"` up to the first `/`, `?` or `#`, with any userinfo (up to `@`) and
any port (after `:`) stripped. -/
def jsHostname (s : String) : Option String :=
  match s.splitOn "://" with
  | scheme :: rest :: _ =>
    if scheme = "" then none
    else
      let authority := rest.data.takeWhile
        (fun c => c ≠ '/' ∧ c ≠ '?' ∧ c ≠ '#')
      let noUser := ((authority.splitOn '@').getLast? ).getD authority
      some (String.mk (noUser.takeWhile (fun c => c ≠ ':')))
  | _ => none

/-- The bookmark title rule of `toggleBookmark`: search pages get
`"Search: <query>"`, the new-tab page a fixed label, external pages the URL
host with the raw URL as fallback when parsing fails. -/
def bookmarkTitle (url : String) (page : Page) (query : String) : String :=
  match page with
  | .search => "Search: " ++ query
  | .newtab => "New Tab"
  | .external => (jsHostname url).getD url

/-- The bookmark object `toggleBookmark` inserts: fresh id and creation time
from the clock (`newId`, `now`), title from the page-type rule. -/
def freshBookmark (url : String) (page : Page) (query : String)
    (newId : String) (now : Int) : Bookmark :=
  { id := newId, title := bookmarkTitle url page query, url := url,
    createdAt := now }

/-- Shallow embedding of `toggleBookmark`: remove every bookmark whose url
equals the current url if one exists, else append a fresh bookmark. -/
def toggleBookmark (bs : List Bookmark) (url : String) (page : Page)
    (query : String) (newId : String) (now : Int) : List Bookmark :=
  if (bs.find? (fun b => b.url == url)).isSome then
    bs.filter (fun b => b.url != url)
  else
    bs ++ [freshBookmark url page query newId now]

/-! ### The download simulator -/

inductive DlStatus where
  | downloading
  | completed
  | error
  deriving DecidableEq, Repr

inductive DlType where
  | video
  | file
  deriving DecidableEq, Repr

/-- `DownloadItem`; `progress` is a JavaScript number, modelled as `ℚ`. -/
structure DownloadItem where
  id : String
  filename : String
  progress : ℚ
  status : DlStatus
  size : String
  type : DlType
  date : Int
  deriving DecidableEq, Repr

/-- Shallow embedding of one download tick for one entry, with the random
increment `Math.random() * 8` passed in as `r`: a downloading entry advances
by `r`, clamping to exactly 100 and completing when the new progress would
reach or exceed 100; other entries are untouched. -/
def tickDownload (r : ℚ) (dl : DownloadItem) : DownloadItem :=
  if dl.status = .downloading then
    let newProgress := dl.progress + r
    if 100 ≤ newProgress then { dl with progress := 100, status := .completed }
    else { dl with progress := newProgress }
  else dl

/-! ### JSON values, `JSON.stringify` and `JSON.parse`
(used by `importBookmarks` and by the persistent store) -/

/-- JSON values. A number is kept as its source token (the numeric value is
never computed on in this code); object members keep insertion order, which
is also the enumeration order of string-keyed JavaScript objects. -/
inductive Json where
  | jnull
  | jbool (flag : Bool)
  | jnum (tok : String)
  | jstr (text : String)
  | jarr (items : List Json)
  | jobj (fields : List (String × Json))

/-- Escaping of one character inside a JSON string literal, as
`JSON.stringify` performs it. -/
def escapeChar (c : Char) : List Char :=
  if c == '"' then ['\\', '"']
  else if c == '\\' then ['\\', '\\']
  else if c == Char.ofNat 8 then ['\\', 'b']
  else if c == Char.ofNat 12 then ['\\', 'f']
  else if c == '\n' then ['\\', 'n']
  else if c == '\r' then ['\\', 'r']
  else if c == '\t' then ['\\', 't']
  else if c.toNat < 0x20 then
    ['\\', 'u', '0', '0', hexDigitU (c.toNat / 16), hexDigitU (c.toNat % 16)]
  else [c]

mutual

/-- Model of `JSON.stringify` (compact form, as the no-indent overload the
source uses produces), emitting a character list. -/
def stringifyChars : Json → List Char
  | .jnull => ['n', 'u', 'l', 'l']
  | .jbool true => ['t', 'r', 'u', 'e']
  | .jbool false => ['f', 'a', 'l', 's', 'e']
  | .jnum tok => tok.data
  | .jstr text => '"' :: text.data.flatMap escapeChar ++ ['"']
  | .jarr items => '[' :: stringifyElems items ++ [']']
  | .jobj fields => Char.ofNat 123 :: stringifyMembers fields ++ [Char.ofNat 125]

def stringifyElems : List Json → List Char
  | [] => []
  | [v] => stringifyChars v
  | v :: rest => stringifyChars v ++ ',' :: stringifyElems rest

def stringifyMembers : List (String × Json) → List Char
  | [] => []
  | [(k, v)] => '"' :: k.data.flatMap escapeChar ++ '"' :: ':' :: stringifyChars v
  | (k, v) :: rest =>
    '"' :: k.data.flatMap escapeChar ++ '"' :: ':' :: stringifyChars v ++
      ',' :: stringifyMembers rest

end

def stringifyJson (v : Json) : String :=
  String.mk (stringifyChars v)

/-- JSON insignificant whitespace. -/
def jsonWs (c : Char) : Bool :=
  c == ' ' || c == '\t' || c == '\n' || c == '\r'

def isDigitCh (c : Char) : Bool :=
  48 ≤ c.toNat && c.toNat ≤ 57

/-- Parse the body of a JSON string literal (the opening quote has been
consumed); returns the decoded string and the input after the closing quote.
A `\uXXXX` escape denoting a lone surrogate is decoded as U+FFFD (the
acceptance behavior matches `JSON.parse`; only the decoded content of such
pathological strings differs). -/
def parseStrBody : List Char → Option (List Char × List Char)
  | [] => none
  | '"' :: rest => some ([], rest)
  | '\\' :: e :: rest =>
    if e == 'u' then
      match rest with
      | h1 :: h2 :: h3 :: h4 :: rest2 =>
        match hexVal h1, hexVal h2, hexVal h3, hexVal h4 with
        | some a, some b, some c, some d =>
          let n := ((a * 16 + b) * 16 + c) * 16 + d
          let ch := if 0xd800 ≤ n ∧ n ≤ 0xdfff then Char.ofNat 0xfffd
                    else Char.ofNat n
          (parseStrBody rest2).map (fun p => (ch :: p.1, p.2))
        | _, _, _, _ => none
      | _ => none
    else
      let dec : Option Char :=
        if e == '"' then some '"'
        else if e == '\\' then some '\\'
        else if e == '/' then some '/'
        else if e == 'b' then some (Char.ofNat 8)
        else if e == 'f' then some (Char.ofNat 12)
        else if e == 'n' then some '\n'
        else if e == 'r' then some '\r'
        else if e == 't' then some '\t'
        else none
      match dec with
      | some c => (parseStrBody rest).map (fun p => (c :: p.1, p.2))
      | none => none
  | c :: rest =>
    if c.toNat < 0x20 then none
    else (parseStrBody rest).map (fun p => (c :: p.1, p.2))

/-- Integer part of a JSON number: `0`, or a nonzero digit followed by a
maximal digit run. -/
def numIntPart : List Char → Option (List Char × List Char)
  | [] => none
  | c :: rest =>
    if isDigitCh c = false then none
    else if c == '0' then some (['0'], rest)
    else some (c :: rest.takeWhile isDigitCh, rest.dropWhile isDigitCh)

/-- Optional fraction part of a JSON number: `.` followed by at least one
digit; anything else contributes nothing. -/
def numFracPart (cs : List Char) : List Char × List Char :=
  if cs.head? = some '.' then
    match cs with
    | _ :: c2 :: rest =>
      if isDigitCh c2 then
        ('.' :: c2 :: rest.takeWhile isDigitCh, rest.dropWhile isDigitCh)
      else ([], cs)
    | _ => ([], cs)
  else ([], cs)

/-- Optional exponent part of a JSON number: `e`/`E`, optional sign, at least
one digit; anything else contributes nothing. -/
def numExpPart (cs : List Char) : List Char × List Char :=
  if cs.head? = some 'e' ∨ cs.head? = some 'E' then
    match cs with
    | e :: rest2 =>
      let (esign, rest3) :=
        if rest2.head? = some '+' then ((['+'] : List Char), rest2.tail)
        else if rest2.head? = some '-' then (['-'], rest2.tail)
        else ([], rest2)
      match rest3 with
      | d :: _ =>
        if isDigitCh d then
          (e :: esign ++ rest3.takeWhile isDigitCh, rest3.dropWhile isDigitCh)
        else ([], cs)
      | [] => ([], cs)
    | [] => ([], cs)
  else ([], cs)

/-- Parse a JSON number token (grammar `-?(0|[1-9][0-9]*)` with optional
fraction and exponent); returns the token characters and the rest. -/
def parseNumTok (cs : List Char) : Option (List Char × List Char) :=
  let (sign, cs1) :=
    if cs.head? = some '-' then ((['-'] : List Char), cs.tail) else ([], cs)
  match numIntPart cs1 with
  | none => none
  | some (ip, cs2) =>
    let (fp, cs3) := numFracPart cs2
    let (ep, cs4) := numExpPart cs3
    some (sign ++ ip ++ fp ++ ep, cs4)

mutual

/-- Model of the JSON value grammar; the fuel strictly decreases on every
call, and the top-level entry point supplies more than enough of it. -/
def parseVal : Nat → List Char → Option (Json × List Char)
  | 0, _ => none
  | fuel + 1, cs =>
    let cs := cs.dropWhile jsonWs
    match cs with
    | [] => none
    | c :: rest =>
      if c == Char.ofNat 123 then parseObjFirst fuel rest
      else if c == '[' then parseArrFirst fuel rest
      else if c == '"' then
        (parseStrBody rest).map (fun p => (.jstr (String.mk p.1), p.2))
      else if ['t', 'r', 'u', 'e'].isPrefixOf cs then
        some (.jbool true, cs.drop 4)
      else if ['f', 'a', 'l', 's', 'e'].isPrefixOf cs then
        some (.jbool false, cs.drop 5)
      else if ['n', 'u', 'l', 'l'].isPrefixOf cs then
        some (.jnull, cs.drop 4)
      else
        (parseNumTok cs).map (fun p => (.jnum (String.mk p.1), p.2))

/-- After `[`: empty array or first element. -/
def parseArrFirst : Nat → List Char → Option (Json × List Char)
  | 0, _ => none
  | fuel + 1, cs =>
    match cs.dropWhile jsonWs with
    | ']' :: rest => some (.jarr [], rest)
    | cs2 =>
      match parseVal fuel cs2 with
      | some (v, rest) => parseArrRest fuel [v] rest
      | none => none

/-- After an element: `,` and another element, or `]`. The accumulator holds
the elements parsed so far, in reverse. -/
def parseArrRest : Nat → List Json → List Char → Option (Json × List Char)
  | 0, _, _ => none
  | fuel + 1, acc, cs =>
    match cs.dropWhile jsonWs with
    | ']' :: rest => some (.jarr acc.reverse, rest)
    | ',' :: rest =>
      match parseVal fuel rest with
      | some (v, rest2) => parseArrRest fuel (v :: acc) rest2
      | none => none
    | _ => none

/-- After the opening brace: empty object or first member. -/
def parseObjFirst : Nat → List Char → Option (Json × List Char)
  | 0, _ => none
  | fuel + 1, cs =>
    match cs.dropWhile jsonWs with
    | c :: rest =>
      if c == Char.ofNat 125 then some (.jobj [], rest)
      else if c == '"' then
        match parseStrBody rest with
        | some (k, rest2) =>
          match (rest2.dropWhile jsonWs) with
          | ':' :: rest3 =>
            match parseVal fuel rest3 with
            | some (v, rest4) => parseObjRest fuel [(String.mk k, v)] rest4
            | none => none
          | _ => none
        | none => none
      else none
    | [] => none

/-- After a member: `,` and another member, or the closing brace. -/
def parseObjRest : Nat → List (String × Json) → List Char →
    Option (Json × List Char)
  | 0, _, _ => none
  | fuel + 1, acc, cs =>
    match cs.dropWhile jsonWs with
    | c :: rest =>
      if c == Char.ofNat 125 then some (.jobj acc.reverse, rest)
      else if c == ',' then
        match rest.dropWhile jsonWs with
        | q :: rest2 =>
          if q == '"' then
            match parseStrBody rest2 with
            | some (k, rest3) =>
              match rest3.dropWhile jsonWs with
              | ':' :: rest4 =>
                match parseVal fuel rest4 with
                | some (v, rest5) => parseObjRest fuel ((String.mk k, v) :: acc) rest5
                | none => none
              | _ => none
            | none => none
          else none
        | [] => none
      else none
    | [] => none

end

/-- Model of `JSON.parse`: parse one value and require that only whitespace
remains. -/
def parseJson (s : String) : Option Json :=
  match parseVal (4 * s.data.length + 8) s.data with
  | some (v, rest) => if rest.dropWhile jsonWs = [] then some v else none
  | none => none

/-- Shallow embedding of `importBookmarks` (the `onload` handler), with the
document text as input: malformed JSON is caught and logged
(`"Invalid bookmark file"`); a parsed array is appended element-wise to the
current bookmark list (the elements are stored as parsed, without
validation, hence the JSON representation of the list); any other parsed
shape leaves the list untouched and produces no log. The second component is
the log message, if any. -/
def importBookmarks (doc : String) (bs : List Json) :
    List Json × Option String :=
  match parseJson doc with
  | none => (bs, some "Invalid bookmark file")
  | some v =>
    match v with
    | .jarr items => (bs ++ items, none)
    | _ => (bs, none)

/-! ### The persistent store (`usePersistentState`) -/

/-- Model of the initial read of `usePersistentState`:
`item ? JSON.parse(item) : initialValue`, with a thrown parse error caught
and replaced by the initial value (an empty stored string is falsy and also
yields the initial value). -/
def loadPersistent (item : Option String) (initial : Json) : Json :=
  match item with
  | none => initial
  | some s =>
    if s = "" then initial
    else
      match parseJson s with
      | some v => v
      | none => initial

/-- Model of the write-through save: `JSON.stringify(state)`. -/
def savePersistent (v : Json) : String :=
  stringifyJson v

/-- Decimal digits of a natural number, most significant first (the model of
JavaScript number-to-string for the integers this state stores). The fuel
argument only bounds the recursion; `n + 1` suffices. -/
def natDigitsGo : Nat → Nat → List Char
  | 0, _ => []
  | fuel + 1, n =>
    if n < 10 then [Char.ofNat (48 + n)]
    else natDigitsGo fuel (n / 10) ++ [Char.ofNat (48 + n % 10)]

def natChars (n : Nat) : List Char :=
  natDigitsGo (n + 1) n

def natToStr (n : Nat) : String :=
  String.mk (natChars n)

/-- The persisted ad-block statistics record. -/
structure AdBlockStats where
  enabled : Bool
  totalBlocked : Nat
  sessionBlocked : Nat
  strictMode : Bool
  deriving DecidableEq, Repr

/-- The JSON value the application state `adBlockStats` holds, with the
field order of the object literal in the source. -/
def adBlockToJson (s : AdBlockStats) : Json :=
  .jobj [("enabled", .jbool s.enabled),
        ("totalBlocked", .jnum (natToStr s.totalBlocked)),
        ("sessionBlocked", .jnum (natToStr s.sessionBlocked)),
        ("strictMode", .jbool s.strictMode)]

/-- Field lookup on a JSON object (first match), as property access on the
revived object performs it. -/
def getField (v : Json) (key : String) : Option Json :=
  match v with
  | .jobj fields => (fields.find? (fun m => m.1 == key)).map (fun m => m.2)
  | _ => none


/-! ### Invariants and sample values used by the theorems -/

/-- The history invariant: the index is a valid position in the stack. -/
def HistInv (s : Session) : Prop :=
  0 ≤ s.historyIndex ∧ s.historyIndex < (s.history.length : Int)

/-- The concrete stack `[A, B, C]` at index 2 of the forward-truncation
scenario. -/
def scenarioABC : Session :=
  { url := "https://c.example",
    history := ["chimera://newtab", "https://b.example", "https://c.example"],
    historyIndex := 2, internalPage := .external, searchQuery := "",
    searchResults := [] }

/-- A sample in-flight download entry. -/
def sampleDownload : DownloadItem :=
  { id := "1", filename := "video_1.mp4", progress := 50,
    status := .downloading, size := "145.2 MB", type := .video, date := 0 }

/-- How back/forward resolve the session after retargeting the url: the page
variant is re-derived from the URL shape alone (sentinel → NewTab, internal
search URL → SearchResults with the query decoded from the URL, else →
External); search results are re-synthesized only when the current result
list is empty, otherwise the previous results are kept. -/
def PageDerived (old new : Session) : Prop :=
  (new.url = "chimera://newtab" → new.internalPage = .newtab) ∧
  (new.url ≠ "chimera://newtab" →
    strStartsWith new.url "chimera://search" = true →
      new.internalPage = .search ∧
      new.searchQuery =
        decodeURIComponent ((jsSplit new.url "q=").getD 1 "") ∧
      new.searchResults =
        (if old.searchResults.length = 0 then
          generateMockResults
            (decodeURIComponent ((jsSplit new.url "q=").getD 1 ""))
         else old.searchResults)) ∧
  (new.url ≠ "chimera://newtab" →
    strStartsWith new.url "chimera://search" = false →
      new.internalPage = .external ∧
      new.searchQuery = old.searchQuery ∧
      new.searchResults = old.searchResults)

/-- The seeded default bookmarks (ids and two of the entries of the source's
initial value). -/
def sampleBookmarks : List Bookmark :=
  [{ id := "1", title := "Wikipedia", url := "https://www.wikipedia.org",
     createdAt := 0 },
   { id := "2", title := "Hacker News", url := "https://news.ycombinator.com",
     createdAt := 0 }]

/-- A bookmark list with two entries sharing one url (such duplicates can be
produced by `importBookmarks`, which appends without dedup). -/
def dupBookmarks : List Bookmark :=
  [{ id := "1", title := "A", url := "u1", createdAt := 0 },
   { id := "2", title := "B", url := "u1", createdAt := 0 }]

/-! ### Helper lemmas -/

lemma syncUrl_history (s : Session) : (syncUrl s).history = s.history := by
  unfold syncUrl
  split_ifs <;> rfl

lemma syncUrl_historyIndex (s : Session) :
    (syncUrl s).historyIndex = s.historyIndex := by
  unfold syncUrl
  split_ifs <;> rfl

lemma syncUrl_url (s : Session) : (syncUrl s).url = s.url := by
  unfold syncUrl
  split_ifs <;> rfl

/-- Both branches of `navigate` truncate the stack at `historyIndex + 1`,
append the navigated URL and point the index at it. -/
lemma navigate_shape (s : Session) (input : String) :
    (navigate s input).history =
      jsSliceTo s.history (s.historyIndex + 1) ++ [(navigate s input).url] ∧
    (navigate s input).historyIndex =
      ((jsSliceTo s.history (s.historyIndex + 1)).length : Int) := by
  unfold navigate
  dsimp only
  split_ifs <;>
    simp [syncUrl_history, syncUrl_historyIndex, syncUrl_url]

lemma histInv_navigate (s : Session) (input : String) :
    HistInv (navigate s input) := by
  obtain ⟨h1, h2⟩ := navigate_shape s input
  unfold HistInv
  rw [h1, h2]
  simp

lemma histInv_step (s : Session) (op : Op) (h : HistInv s) :
    HistInv (step s op) := by
  unfold HistInv at h
  cases op with
  | nav input => exact histInv_navigate s input
  | back =>
    simp only [step, handleBack]
    split_ifs with hc
    · unfold HistInv
      simp only [syncUrl_historyIndex, syncUrl_history]
      omega
    · exact h
  | fwd =>
    simp only [step, handleForward]
    split_ifs with hc
    · unfold HistInv
      simp only [syncUrl_historyIndex, syncUrl_history]
      omega
    · exact h
  | reset =>
    simp only [step, resetBrowser]
    unfold HistInv
    simp only [syncUrl_historyIndex, syncUrl_history]
    simp

lemma histInv_run (s : Session) (ops : List Op) (h : HistInv s) :
    HistInv (run s ops) := by
  induction ops generalizing s with
  | nil => exact h
  | cons op rest ih => exact ih (step s op) (histInv_step s op h)

/-- Claim C1: for every state reachable from the initial state
(`historyStack = ["chimera://newtab"]`, `historyIndex = 0`) by any sequence
of navigate, back, forward and reset operations, the history-stack index
satisfies `0 ≤ historyIndex < historyStack.length`. -/
theorem c1_history_index_invariant (ops : List Op) :
    0 ≤ (run initSession ops).historyIndex ∧
    (run initSession ops).historyIndex <
      ((run initSession ops).history.length : Int) := by
  exact histInv_run initSession ops (by constructor <;> simp [initSession])

/-- Claim C2: `navigate` discards the forward branch: it truncates the stack
to `historyIndex + 1` entries, appends the navigated URL and points the index
at the new last entry; in particular, from `[A, B, C]` at index 2, `back()`
followed by `navigate(D)` yields `[A, B, D]` at index 2. -/
theorem c2_forward_truncation (s : Session) (input : String)
    (h0 : 0 ≤ s.historyIndex)
    (h1 : s.historyIndex < (s.history.length : Int)) :
    (navigate s input).history =
      s.history.take (s.historyIndex + 1).toNat ++ [(navigate s input).url] ∧
    (navigate s input).historyIndex = s.historyIndex + 1 ∧
    (run scenarioABC [.back, .nav "https://d.example"]).history =
      ["chimera://newtab", "https://b.example", "https://d.example"] ∧
    (run scenarioABC [.back, .nav "https://d.example"]).historyIndex = 2 := by
  obtain ⟨g1, g2⟩ := navigate_shape s input
  have hslice : jsSliceTo s.history (s.historyIndex + 1) =
      s.history.take (s.historyIndex + 1).toNat := by
    unfold jsSliceTo
    rw [if_pos (by omega)]
  have hlen : ((jsSliceTo s.history (s.historyIndex + 1)).length : Int) =
      s.historyIndex + 1 := by
    rw [hslice]
    simp [List.length_take]
    omega
  refine ⟨by rw [g1, hslice], by rw [g2, hlen], by decide, by decide⟩

theorem c2_forward_truncation_witness :
    (0 : Int) ≤ initSession.historyIndex ∧
    initSession.historyIndex < (initSession.history.length : Int) ∧
    ((navigate initSession "https://d.example").history =
      initSession.history.take (initSession.historyIndex + 1).toNat ++
        [(navigate initSession "https://d.example").url] ∧
     (navigate initSession "https://d.example").historyIndex =
       initSession.historyIndex + 1 ∧
     (run scenarioABC [.back, .nav "https://d.example"]).history =
       ["chimera://newtab", "https://b.example", "https://d.example"] ∧
     (run scenarioABC [.back, .nav "https://d.example"]).historyIndex = 2) :=
  ⟨by decide, by decide,
   c2_forward_truncation initSession "https://d.example" (by decide) (by decide)⟩

/-- Claim C4: the result synthesizer is deterministic: the embedded source
function reads no clock and no random source, so its output depends on
nothing but the query string, and two calls on the same query produce
identical ordered results, field for field, ad flags included. -/
theorem c4_synthesize_deterministic (q1 q2 : String) (h : q1 = q2) :
    generateMockResults q1 = generateMockResults q2 := by
  rw [h]

theorem c4_synthesize_deterministic_witness :
    "coffee" = "coffee" ∧
    generateMockResults "coffee" = generateMockResults "coffee" :=
  ⟨rfl, c4_synthesize_deterministic "coffee" "coffee" rfl⟩

set_option maxRecDepth 20000 in
/-- Claim C6 counterexample: for the query `"banana"` the 32-bit rolling hash
is negative; the code flags slot 1 as an advertisement (its seed is
`Math.abs(hash) + 1`, divisible by 4), yet `hash + 1` is not divisible by 4 —
the claimed per-slot seed `hash + slot index` mispredicts the ad slots. -/
theorem c6_seed_formula_counterexample :
    hashQuery "banana" < 0 ∧
    ((generateMockResults "banana").getD 1 default).ads = true ∧
    ¬ (4 : Int) ∣ (hashQuery "banana" + 1) := by
  refine ⟨by decide, by decide, by decide⟩

/-- Claim C6 as amended: for every query, `synthesize` returns exactly 8
results; the hash is the rolling polynomial accumulation with 32-bit
wraparound; the per-slot seed is the absolute value of the hash plus the slot
index; the label tag is chosen by the seed modulo 4 from the four fixed tags,
and a slot is an advertisement exactly when its seed is divisible by 4. -/
theorem c6_synthesize_structure (q : String) (i : Nat) (h : i < 8) :
    (generateMockResults q).length = 8 ∧
    ((generateMockResults q).getD i default).ads =
      ((((hashQuery q).natAbs + i) % 4) == 0) ∧
    ((generateMockResults q).getD i default).title =
      q ++ " - Result " ++ Nat.repr (i + 1) ++ " (" ++
        resultTypes.getD (((hashQuery q).natAbs + i) % 4) "" ++ ")" := by
  unfold generateMockResults
  refine ⟨by simp, ?_, ?_⟩ <;>
    simp [List.getD, List.getElem?_map, List.getElem?_range, h, resultTypes]

theorem c6_synthesize_structure_witness :
    (5 : Nat) < 8 ∧
    ((generateMockResults "lean").length = 8 ∧
     ((generateMockResults "lean").getD 5 default).ads =
       ((((hashQuery "lean").natAbs + 5) % 4) == 0) ∧
     ((generateMockResults "lean").getD 5 default).title =
       "lean" ++ " - Result " ++ Nat.repr 6 ++ " (" ++
         resultTypes.getD (((hashQuery "lean").natAbs + 5) % 4) "" ++ ")") :=
  ⟨by decide, c6_synthesize_structure "lean" 5 (by decide)⟩

/-- Claim C7: one download tick, for any nonnegative random increment
(`Math.random() * 8` is nonnegative) and any entry with progress in range:
progress never decreases, never exceeds 100, is clamped to exactly 100 with
status Completed in the tick where it would reach or exceed 100, and entries
that are not Downloading are left unchanged. -/
theorem c7_download_tick (dl : DownloadItem) (r : ℚ)
    (h0 : 0 ≤ r) (h1 : dl.progress ≤ 100) :
    dl.progress ≤ (tickDownload r dl).progress ∧
    (tickDownload r dl).progress ≤ 100 ∧
    (dl.status = .downloading → 100 ≤ dl.progress + r →
      (tickDownload r dl).progress = 100 ∧
      (tickDownload r dl).status = .completed) ∧
    (dl.status = .downloading → dl.progress + r < 100 →
      (tickDownload r dl).progress = dl.progress + r ∧
      (tickDownload r dl).status = .downloading) ∧
    (dl.status ≠ .downloading → tickDownload r dl = dl) := by
  unfold tickDownload
  dsimp only
  split_ifs with hs hp
  · exact ⟨h1, le_refl _, fun _ _ => ⟨rfl, rfl⟩,
      fun _ hlt => absurd hp (not_le.mpr hlt), fun hns => absurd hs hns⟩
  · refine ⟨by dsimp only; linarith, by dsimp only; linarith [not_le.mp hp], ?_, ?_, ?_⟩
    · intro _ hge
      exact absurd hge hp
    · intro _ _
      exact ⟨rfl, by simp [hs]⟩
    · intro hns
      exact absurd hs hns
  · exact ⟨le_refl _, h1, fun hd => absurd hd hs, fun hd => absurd hd hs,
      fun _ => rfl⟩

theorem c7_download_tick_witness :
    (0 : ℚ) ≤ 5 ∧ sampleDownload.progress ≤ 100 ∧
    sampleDownload.progress ≤ (tickDownload 5 sampleDownload).progress :=
  ⟨by norm_num, by norm_num [sampleDownload],
   (c7_download_tick sampleDownload 5 (by norm_num)
     (by norm_num [sampleDownload])).1⟩
/-! ### Classification lemmas (claim C5) -/

lemma listContainsSub_iff_infix (l pat : List Char) :
    listContainsSub l pat = true ↔ pat <:+: l := by
  induction l with
  | nil =>
    rw [listContainsSub]
    split_ifs with hp
    · simpa using (List.isPrefixOf_iff_prefix.mp hp).isInfix
    · simp only [Bool.false_eq_true, false_iff]
      intro h
      rw [List.infix_nil] at h
      subst h
      exact hp rfl
  | cons c t ih =>
    rw [listContainsSub]
    split_ifs with hp
    · simpa using (List.isPrefixOf_iff_prefix.mp hp).isInfix
    · rw [ih]
      constructor
      · exact fun h => h.trans (List.infix_cons_iff.mpr (Or.inr (by simp)))
      · intro h
        rcases List.infix_cons_iff.mp h with hpre | hinf
        · exact absurd (List.isPrefixOf_iff_prefix.mpr hpre) (by simp [hp])
        · exact hinf

/-- A string starting with the internal search prefix contains the scheme
separator. -/
lemma contains_sep_of_chimeraSearch (t : String)
    (h : strStartsWith t "chimera://search" = true) :
    hasSubstr t "://" = true := by
  rw [strStartsWith, List.isPrefixOf_iff_prefix] at h
  rw [hasSubstr, listContainsSub_iff_infix]
  exact List.IsInfix.trans ⟨"chimera".data, "search".data, rfl⟩ h.isInfix

lemma https_append_ne_newtab (t : String) :
    "https://" ++ t ≠ "chimera://newtab" := by
  intro h
  have h2 := congrArg String.data h
  rw [String.data_append] at h2
  simp at h2

lemma https_append_not_chimeraSearch (t : String) :
    strStartsWith ("https://" ++ t) "chimera://search" = false := by
  simp [strStartsWith, String.data_append, List.isPrefixOf]

lemma search_url_ne_newtab (t : String) :
    "chimera://search?q=" ++ t ≠ "chimera://newtab" := by
  intro h
  have h2 := congrArg String.data h
  rw [String.data_append] at h2
  simp at h2

lemma search_url_startsWith (t : String) :
    strStartsWith ("chimera://search?q=" ++ t) "chimera://search" = true := by
  simp [strStartsWith, String.data_append, List.isPrefixOf]

lemma generateMockResults_length (q : String) :
    (generateMockResults q).length = 8 := by
  simp [generateMockResults]

/-- Classification, host case: a trimmed non-empty, non-sentinel input with no
scheme separator, containing a dot and no space, lands on the External page;
`https://` is prepended exactly when the input does not start with `"http"`. -/
lemma navigate_external (s : Session) (input : String)
    (h1 : jsTrim input ≠ "") (h2 : jsTrim input ≠ "chimera://newtab")
    (h3 : hasSubstr (jsTrim input) "://" = false)
    (hd : strContains (jsTrim input) '.' = true)
    (hsp : strContains (jsTrim input) ' ' = false) :
    (navigate s input).internalPage = .external ∧
    (navigate s input).url =
      (if strStartsWith (jsTrim input) "http" = true then jsTrim input
       else "https://" ++ jsTrim input) := by
  have hcond : ¬ (jsTrim input = "chimera://newtab" ∨ jsTrim input = "") := by
    rintro (h | h)
    · exact h2 h
    · exact h1 h
  have hsw : strStartsWith (jsTrim input) "chimera://search" = false := by
    cases hb : strStartsWith (jsTrim input) "chimera://search"
    · rfl
    · rw [contains_sep_of_chimeraSearch _ hb] at h3
      cases h3
  by_cases hhttp : strStartsWith (jsTrim input) "http" = false
  · constructor <;>
      simp [navigate, syncUrl, hcond, h1, h2, h3, hd, hsp, hhttp,
        https_append_ne_newtab, https_append_not_chimeraSearch]
  · constructor <;>
      simp [navigate, syncUrl, hcond, h1, h2, h3, hd, hsp, hhttp, hsw]

/-- Classification, search case: any other shape becomes a search query with
the canonical internal search URL and freshly synthesized results. -/
lemma navigate_search (s : Session) (input : String)
    (h1 : jsTrim input ≠ "") (h2 : jsTrim input ≠ "chimera://newtab")
    (h3 : hasSubstr (jsTrim input) "://" = false)
    (hns : ¬ (strContains (jsTrim input) '.' = true ∧
              strContains (jsTrim input) ' ' = false)) :
    (navigate s input).internalPage = .search ∧
    (navigate s input).url =
      "chimera://search?q=" ++ encodeURIComponent (jsTrim input) ∧
    (navigate s input).searchResults = generateMockResults (jsTrim input) := by
  have hcond : ¬ (jsTrim input = "chimera://newtab" ∨ jsTrim input = "") := by
    rintro (h | h)
    · exact h2 h
    · exact h1 h
  refine ⟨?_, ?_, ?_⟩ <;>
    simp [navigate, syncUrl, hcond, h1, h2, h3, hns, search_url_ne_newtab,
      search_url_startsWith, generateMockResults_length]

/-- Claim C5 counterexample: `"httpmirror.org"` is a trimmed, non-empty,
non-sentinel input without a scheme separator that contains a dot and no
whitespace, so the claim predicts the External page with url
`https://httpmirror.org`; the code only prepends `https://` when the input
does not start with the four characters `"http"`, so the resulting url stays
`httpmirror.org` with no scheme. -/
theorem c5_scheme_prepend_counterexample :
    hasSubstr "httpmirror.org" "://" = false ∧
    (navigate initSession "httpmirror.org").internalPage = .external ∧
    (navigate initSession "httpmirror.org").url = "httpmirror.org" ∧
    (navigate initSession "httpmirror.org").url ≠ "https://httpmirror.org" := by
  refine ⟨by decide, by decide, by decide, by decide⟩

/-- Claim C5 as amended: a trimmed non-empty, non-sentinel input with no
scheme separator is treated as a bare host when it contains a `'.'` and no
space character, with `https://` prepended unless the input already starts
with the prefix `"http"`; any other shape becomes a search query with the
canonical internal search URL carrying the percent-encoded query and exactly
8 synthesized results. The two spec scenarios hold:
`navigate("wikipedia.org")` yields the External page with url
`https://wikipedia.org`, and `navigate("best coffee shop")` yields the search
page with url `chimera://search?q=best%20coffee%20shop` and 8 results. -/
theorem c5_input_classification (s : Session) (input : String)
    (h1 : jsTrim input ≠ "") (h2 : jsTrim input ≠ "chimera://newtab")
    (h3 : hasSubstr (jsTrim input) "://" = false) :
    (strContains (jsTrim input) '.' = true ∧
        strContains (jsTrim input) ' ' = false →
      (navigate s input).internalPage = .external ∧
      (navigate s input).url =
        (if strStartsWith (jsTrim input) "http" = true then jsTrim input
         else "https://" ++ jsTrim input)) ∧
    (¬ (strContains (jsTrim input) '.' = true ∧
        strContains (jsTrim input) ' ' = false) →
      (navigate s input).internalPage = .search ∧
      (navigate s input).url =
        "chimera://search?q=" ++ encodeURIComponent (jsTrim input) ∧
      (navigate s input).searchResults = generateMockResults (jsTrim input) ∧
      (navigate s input).searchResults.length = 8) ∧
    ((navigate initSession "wikipedia.org").internalPage = .external ∧
     (navigate initSession "wikipedia.org").url = "https://wikipedia.org") ∧
    ((navigate initSession "best coffee shop").internalPage = .search ∧
     (navigate initSession "best coffee shop").url =
       "chimera://search?q=best%20coffee%20shop" ∧
     (navigate initSession "best coffee shop").searchResults.length = 8) := by
  refine ⟨?_, ?_, ⟨by decide, by decide⟩, ⟨by decide, by decide, ?_⟩⟩
  · intro ⟨hd, hsp⟩
    exact navigate_external s input h1 h2 h3 hd hsp
  · intro hns
    obtain ⟨ha, hb, hc⟩ := navigate_search s input h1 h2 h3 hns
    exact ⟨ha, hb, hc, by rw [hc, generateMockResults_length]⟩
  · rw [(navigate_search initSession "best coffee shop" (by decide) (by decide)
      (by decide) (by decide)).2.2, generateMockResults_length]

theorem c5_input_classification_witness :
    jsTrim "wikipedia.org" ≠ "" ∧
    jsTrim "wikipedia.org" ≠ "chimera://newtab" ∧
    hasSubstr (jsTrim "wikipedia.org") "://" = false ∧
    ((navigate initSession "wikipedia.org").internalPage = .external ∧
     (navigate initSession "wikipedia.org").url = "https://wikipedia.org") :=
  ⟨by decide, by decide, by decide,
   (c5_input_classification initSession "wikipedia.org" (by decide) (by decide)
      (by decide)).2.2.1⟩

/-! ### Back/forward (claim C3) -/

lemma syncUrl_derives (t : Session) : PageDerived t (syncUrl t) := by
  unfold syncUrl
  split_ifs with hs1 hs2 hlen <;> unfold PageDerived <;> dsimp only
  · exact ⟨fun _ => rfl, fun hne _ => absurd hs1 hne, fun hne _ => absurd hs1 hne⟩
  · refine ⟨fun habs => absurd habs hs1,
      fun _ _ => ⟨rfl, rfl, by rw [if_pos hlen]⟩, fun _ hf => ?_⟩
    rw [hs2] at hf
    cases hf
  · refine ⟨fun habs => absurd habs hs1,
      fun _ _ => ⟨rfl, rfl, by rw [if_neg hlen]⟩, fun _ hf => ?_⟩
    rw [hs2] at hf
    cases hf
  · exact ⟨fun habs => absurd habs hs1, fun _ ht => absurd ht hs2,
      fun _ _ => ⟨rfl, rfl, rfl⟩⟩

set_option maxRecDepth 200000 in
/-- Claim C3 counterexample: search for `"cats"`, then `"dogs"`, then go
back. The session re-derives `searchQuery = "cats"` from the target URL, but
the result list is non-empty, so the code keeps the `"dogs"` results instead
of re-synthesizing the `"cats"` ones as the claim requires. -/
theorem c3_back_no_resynthesis_counterexample :
    (run initSession [.nav "cats", .nav "dogs", .back]).internalPage = .search ∧
    (run initSession [.nav "cats", .nav "dogs", .back]).searchQuery = "cats" ∧
    (run initSession [.nav "cats", .nav "dogs", .back]).searchResults =
      generateMockResults "dogs" ∧
    generateMockResults "dogs" ≠ generateMockResults "cats" := by
  exact ⟨by decide, by decide, by decide, by decide⟩

/-- Claim C3 as amended: `back()` is a no-op at index 0 and `forward()` at the
last index; otherwise each moves the index by exactly one, retargets
`currentUrl` from the stack, and re-derives the page variant and active query
from the target URL shape alone — but search results are re-synthesized from
the decoded query only when the current result list is empty; otherwise the
previous results are kept. -/
theorem c3_back_forward_rederive (s : Session) :
    (s.historyIndex = 0 → handleBack s = s) ∧
    (s.historyIndex = (s.history.length : Int) - 1 → handleForward s = s) ∧
    (0 < s.historyIndex →
      (handleBack s).historyIndex = s.historyIndex - 1 ∧
      (handleBack s).url = s.history.getD (s.historyIndex - 1).toNat "" ∧
      PageDerived s (handleBack s)) ∧
    (s.historyIndex < (s.history.length : Int) - 1 →
      (handleForward s).historyIndex = s.historyIndex + 1 ∧
      (handleForward s).url = s.history.getD (s.historyIndex + 1).toNat "" ∧
      PageDerived s (handleForward s)) := by
  refine ⟨?_, ?_, ?_, ?_⟩
  · intro h0
    unfold handleBack
    rw [if_neg (by omega)]
  · intro hlast
    unfold handleForward
    rw [if_neg (by omega)]
  · intro hpos
    unfold handleBack
    rw [if_pos hpos]
    exact ⟨by rw [syncUrl_historyIndex], by rw [syncUrl_url],
      syncUrl_derives _⟩
  · intro hlt
    unfold handleForward
    rw [if_pos hlt]
    exact ⟨by rw [syncUrl_historyIndex], by rw [syncUrl_url],
      syncUrl_derives _⟩

/-! ### Bookmark toggling (claim C8) -/

/-- Claim C8 counterexample: on a sequence with two bookmarks holding the
toggled url, `toggle` removes both and the second `toggle` inserts a single
fresh entry, so the double toggle does not restore the original sequence —
it does not even preserve the number of members. -/
theorem c8_toggle_involution_counterexample :
    toggleBookmark (toggleBookmark dupBookmarks "u1" .external "" "9" 7)
        "u1" .external "" "10" 8 ≠ dupBookmarks ∧
    (toggleBookmark (toggleBookmark dupBookmarks "u1" .external "" "9" 7)
        "u1" .external "" "10" 8).length = 1 ∧
    dupBookmarks.length = 2 := by
  exact ⟨by decide, by decide, by decide⟩

/-- Claim C8 as amended: when no bookmark carries the toggled url, toggling
twice restores the original sequence exactly; when some bookmark carries it,
the double toggle keeps every other-url bookmark unchanged (same ids, same
order) and replaces the matching entries by one freshly created bookmark
appended at the end. -/
theorem c8_toggle_behavior (bs : List Bookmark) (url : String) (page : Page)
    (query : String) (id1 id2 : String) (t1 t2 : Int) :
    ((∀ b ∈ bs, b.url ≠ url) →
      toggleBookmark (toggleBookmark bs url page query id1 t1)
        url page query id2 t2 = bs) ∧
    ((∃ b ∈ bs, b.url = url) →
      toggleBookmark (toggleBookmark bs url page query id1 t1)
        url page query id2 t2 =
      bs.filter (fun b => b.url != url) ++
        [freshBookmark url page query id2 t2]) := by
  constructor
  · intro h
    have hfind : bs.find? (fun b => b.url == url) = none :=
      List.find?_eq_none.mpr (fun b hb => by simp [h b hb])
    unfold toggleBookmark
    rw [hfind]
    simp only [Option.isSome_none, Bool.false_eq_true, if_false]
    have hfind2 : ((bs ++ [freshBookmark url page query id1 t1]).find?
        (fun b => b.url == url)).isSome = true :=
      List.find?_isSome.mpr
        ⟨freshBookmark url page query id1 t1, by simp, by simp [freshBookmark]⟩
    rw [if_pos hfind2]
    rw [List.filter_append]
    have h1 : bs.filter (fun b => b.url != url) = bs :=
      List.filter_eq_self.mpr (fun b hb => by simp [h b hb])
    have h2 : List.filter (fun b => b.url != url)
        [freshBookmark url page query id1 t1] = [] := by
      simp [freshBookmark]
    rw [h1, h2, List.append_nil]
  · intro ⟨b, hb, hurl⟩
    have hfind : (bs.find? (fun b => b.url == url)).isSome = true :=
      List.find?_isSome.mpr ⟨b, hb, by simp [hurl]⟩
    unfold toggleBookmark
    rw [if_pos hfind]
    have hfind2 : (bs.filter (fun b => b.url != url)).find?
        (fun b => b.url == url) = none := by
      refine List.find?_eq_none.mpr (fun x hx => ?_)
      have := (List.mem_filter.mp hx).2
      simpa using this
    rw [hfind2]
    simp only [Option.isSome_none, Bool.false_eq_true, if_false]

theorem c8_toggle_behavior_witness :
    (∀ b ∈ sampleBookmarks, b.url ≠ "https://new.example") ∧
    toggleBookmark (toggleBookmark sampleBookmarks "https://new.example"
        .external "" "3" 5) "https://new.example" .external "" "4" 6 =
      sampleBookmarks :=
  ⟨by decide,
   (c8_toggle_behavior sampleBookmarks "https://new.example" .external ""
      "3" "4" 5 6).1 (by decide)⟩

/-! ### Bookmark import (claim C9) -/

/-- Claim C9 counterexample: `importAll("\x7b\x7d")` (a JSON object, not an
array) leaves the bookmark list exactly unchanged — but it produces no log at
all: the source only logs in the catch branch for malformed JSON, and a
well-formed non-array document is ignored silently, so the failure is not
reported. -/
theorem c9_import_silent_counterexample :
    importBookmarks "\x7b\x7d" [Json.jstr "b"] = ([Json.jstr "b"], none) := by
  rfl

/-- Claim C9 as amended: for every document whose JSON parse is not an array,
`importAll` leaves the bookmark sequence exactly unchanged, performs no
partial merge and throws nothing; a log is emitted exactly when the JSON is
malformed, while a well-formed non-array document is silently ignored. -/
theorem c9_import_non_array (doc : String) (bs : List Json)
    (h : ∀ xs, parseJson doc ≠ some (Json.jarr xs)) :
    (importBookmarks doc bs).1 = bs ∧
    ((importBookmarks doc bs).2.isSome ↔ parseJson doc = none) := by
  unfold importBookmarks
  cases hp : parseJson doc with
  | none => simp
  | some v =>
    cases v with
    | jarr xs => exact absurd hp (h xs)
    | jnull => exact ⟨rfl, by simp [hp]⟩
    | jbool b => exact ⟨rfl, by simp [hp]⟩
    | jnum r => exact ⟨rfl, by simp [hp]⟩
    | jstr s => exact ⟨rfl, by simp [hp]⟩
    | jobj ms => exact ⟨rfl, by simp [hp]⟩

theorem c9_import_non_array_witness :
    (∀ xs, parseJson "\x7b\x7d" ≠ some (Json.jarr xs)) ∧
    ((importBookmarks "\x7b\x7d" [Json.jstr "b"]).1 = [Json.jstr "b"] ∧
     ((importBookmarks "\x7b\x7d" [Json.jstr "b"]).2.isSome ↔
        parseJson "\x7b\x7d" = none)) := by
  have h : ∀ xs, parseJson "\x7b\x7d" ≠ some (Json.jarr xs) := by
    intro xs hx
    rw [show parseJson "\x7b\x7d" = some (Json.jobj []) from rfl] at hx
    exact Json.noConfusion (Option.some.inj hx)
  exact ⟨h, c9_import_non_array "\x7b\x7d" [Json.jstr "b"] h⟩

/-! ### Persistence round trip (claim C10) -/

lemma isDigitCh_toNat {c : Char} (h : isDigitCh c = true) :
    48 ≤ c.toNat ∧ c.toNat ≤ 57 := by
  simpa [isDigitCh] using h

/-- A digit character is `==`-distinct from any character outside the digit
range. -/
lemma digit_beq_false {c x : Char} (h : isDigitCh c = true)
    (hx : x.toNat < 48 ∨ 57 < x.toNat) : (c == x) = false := by
  obtain ⟨h1, h2⟩ := isDigitCh_toNat h
  simp only [beq_eq_false_iff_ne, ne_eq]
  intro he
  subst he
  omega

lemma digit_beq_false' {c x : Char} (h : isDigitCh c = true)
    (hx : x.toNat < 48 ∨ 57 < x.toNat) : (x == c) = false := by
  obtain ⟨h1, h2⟩ := isDigitCh_toNat h
  simp only [beq_eq_false_iff_ne, ne_eq]
  intro he
  subst he
  omega

lemma digit_not_jsonWs {c : Char} (h : isDigitCh c = true) : jsonWs c = false := by
  unfold jsonWs
  rw [digit_beq_false h (by decide), digit_beq_false h (by decide),
    digit_beq_false h (by decide), digit_beq_false h (by decide)]
  rfl

lemma isDigitCh_ofNat_add (k : Nat) (hk : k < 10) :
    isDigitCh (Char.ofNat (48 + k)) = true := by
  interval_cases k <;> decide

/-- Shape of the decimal digits of `n`: a leading digit (nonzero unless
`n = 0`) followed by digits. -/
lemma natChars_shape (n : Nat) :
    ∃ d ds, natChars n = d :: ds ∧ isDigitCh d = true ∧
      (1 ≤ n → d ≠ Char.ofNat 48) ∧ (∀ c ∈ ds, isDigitCh c = true) := by
  suffices h : ∀ fuel n, n < fuel →
      ∃ d ds, natDigitsGo fuel n = d :: ds ∧ isDigitCh d = true ∧
        (1 ≤ n → d ≠ Char.ofNat 48) ∧ (∀ c ∈ ds, isDigitCh c = true) by
    exact h (n + 1) n (Nat.lt_succ_self n)
  intro fuel
  induction fuel with
  | zero => omega
  | succ fuel ih =>
    intro n hn
    rw [natDigitsGo]
    split_ifs with h10
    · refine ⟨Char.ofNat (48 + n), [], rfl, isDigitCh_ofNat_add n h10, ?_, by simp⟩
      intro h1 he
      have := congrArg Char.toNat he
      rw [show (Char.ofNat (48 + n)).toNat = 48 + n by interval_cases n <;> decide,
        show (Char.ofNat 48).toNat = 48 from rfl] at this
      omega
    · obtain ⟨d, ds, hgo, hd, hd0, hds⟩ := ih (n / 10) (by omega)
      refine ⟨d, ds ++ [Char.ofNat (48 + n % 10)], by rw [hgo]; simp, hd,
        fun _ => hd0 (by omega), ?_⟩
      intro c hc
      rw [List.mem_append] at hc
      rcases hc with hc | hc
      · exact hds c hc
      · rw [List.mem_singleton] at hc
        subst hc
        exact isDigitCh_ofNat_add _ (Nat.mod_lt _ (by norm_num))

lemma takeWhile_append_all {p : Char → Bool} (l1 l2 : List Char)
    (h : ∀ c ∈ l1, p c = true) :
    (l1 ++ l2).takeWhile p = l1 ++ l2.takeWhile p := by
  induction l1 with
  | nil => simp
  | cons c t ih =>
    simp [List.takeWhile_cons, h c (by simp), ih (fun x hx => h x (by simp [hx]))]

lemma dropWhile_append_all {p : Char → Bool} (l1 l2 : List Char)
    (h : ∀ c ∈ l1, p c = true) :
    (l1 ++ l2).dropWhile p = l2.dropWhile p := by
  induction l1 with
  | nil => simp
  | cons c t ih =>
    simp only [List.cons_append, List.dropWhile_cons, h c (by simp)]
    exact ih (fun x hx => h x (by simp [hx]))

/-- The number-token parser consumes exactly the decimal digits of `n` when
the following character is a comma. -/
lemma parseNumTok_natChars (n : Nat) (r : List Char) :
    parseNumTok (natChars n ++ ',' :: r) = some (natChars n, ',' :: r) := by
  obtain ⟨d, ds, hnc, hd, hd0, hds⟩ := natChars_shape n
  rw [hnc]
  unfold parseNumTok
  rw [if_neg (by
    simp only [List.cons_append, List.head?_cons, Option.some.injEq]
    intro he
    subst he
    exact absurd hd (by decide))]
  have hint : numIntPart (d :: (ds ++ ',' :: r)) = some (d :: ds, ',' :: r) := by
    simp only [numIntPart]
    rw [if_neg (by simp [hd])]
    by_cases hn0 : n = 0
    · subst hn0
      have h0 : natChars 0 = d :: ds := hnc
      rw [show natChars 0 = [Char.ofNat 48] from rfl] at h0
      injection h0 with ha hb
      subst ha
      subst hb
      rw [if_pos (by decide)]
      rfl
    · rw [if_neg (by
        simp only [beq_eq_false_iff_ne, ne_eq, Bool.not_eq_true]
        intro he
        exact hd0 (by omega) (by exact_mod_cast he))]
      rw [takeWhile_append_all ds (',' :: r) hds,
        dropWhile_append_all ds (',' :: r) hds]
      simp [List.takeWhile_cons, List.dropWhile_cons,
        show isDigitCh ',' = false from rfl]
  simp only [List.cons_append] at hint ⊢
  rw [hint]
  dsimp only
  have hfrac : numFracPart (',' :: r) = ([], ',' :: r) := by
    unfold numFracPart
    rw [if_neg (by simp)]
  have hexp : numExpPart (',' :: r) = ([], ',' :: r) := by
    unfold numExpPart
    rw [if_neg (by simp)]
  rw [hfrac, hexp]
  simp [hnc]

/-- A numeric value inside a JSON document parses to the number token holding
the digits of `n` when a comma follows. -/
lemma parseVal_natChars_comma (g n : Nat) (r : List Char) :
    parseVal (g + 1) (natChars n ++ ',' :: r) =
      some (Json.jnum (natToStr n), ',' :: r) := by
  obtain ⟨d, ds, hnc, hd, hd0, hds⟩ := natChars_shape n
  have e1 : (d == Char.ofNat 123) = false := digit_beq_false hd (by decide)
  have e2 : (d == '[') = false := digit_beq_false hd (by decide)
  have e3 : (d == '"') = false := digit_beq_false hd (by decide)
  have e4 : (('t' : Char) == d) = false := digit_beq_false' hd (by decide)
  have e5 : (('f' : Char) == d) = false := digit_beq_false' hd (by decide)
  have e6 : (('n' : Char) == d) = false := digit_beq_false' hd (by decide)
  have hre : d :: (ds ++ ',' :: r) = natChars n ++ ',' :: r := by
    rw [hnc, List.cons_append]
  rw [hnc, List.cons_append]
  simp only [parseVal, List.dropWhile_cons, digit_not_jsonWs hd,
    Bool.false_eq_true, if_false, e1, e2, e3, List.isPrefixOf, e4, e5, e6,
    Bool.false_and]
  rw [hre, parseNumTok_natChars]
  rfl

lemma parseVal_openBrace (f : Nat) (r : List Char) :
    parseVal (f + 1) (Char.ofNat 123 :: r) = parseObjFirst f r := by
  simp [parseVal, jsonWs]

lemma parseObjFirst_enabled (f : Nat) (b : Bool) (r : List Char) :
    parseObjFirst (f + 2)
      ('"' :: 'e' :: 'n' :: 'a' :: 'b' :: 'l' :: 'e' :: 'd' :: '"' :: ':' ::
        (stringifyChars (Json.jbool b) ++ r)) =
    parseObjRest (f + 1) [("enabled", Json.jbool b)] r := by
  cases b <;>
    simp [parseObjFirst, parseStrBody, parseVal, jsonWs, stringifyChars]

lemma parseObjRest_totalBlocked (f : Nat) (acc : List (String × Json))
    (tb : Nat) (r : List Char) :
    parseObjRest (f + 2) acc
      (',' :: '"' :: 't' :: 'o' :: 't' :: 'a' :: 'l' :: 'B' :: 'l' :: 'o' ::
        'c' :: 'k' :: 'e' :: 'd' :: '"' :: ':' :: (natChars tb ++ ',' :: r)) =
    parseObjRest (f + 1) (("totalBlocked", Json.jnum (natToStr tb)) :: acc)
      (',' :: r) := by
  simp [parseObjRest, parseStrBody, jsonWs, parseVal_natChars_comma]

lemma parseObjRest_sessionBlocked (f : Nat) (acc : List (String × Json))
    (sb : Nat) (r : List Char) :
    parseObjRest (f + 2) acc
      (',' :: '"' :: 's' :: 'e' :: 's' :: 's' :: 'i' :: 'o' :: 'n' :: 'B' ::
        'l' :: 'o' :: 'c' :: 'k' :: 'e' :: 'd' :: '"' :: ':' ::
        (natChars sb ++ ',' :: r)) =
    parseObjRest (f + 1) (("sessionBlocked", Json.jnum (natToStr sb)) :: acc)
      (',' :: r) := by
  simp [parseObjRest, parseStrBody, jsonWs, parseVal_natChars_comma]

lemma parseObjRest_strictMode (f : Nat) (acc : List (String × Json))
    (b : Bool) :
    parseObjRest (f + 2) acc
      (',' :: '"' :: 's' :: 't' :: 'r' :: 'i' :: 'c' :: 't' :: 'M' :: 'o' ::
        'd' :: 'e' :: '"' :: ':' ::
        (stringifyChars (Json.jbool b) ++ [Char.ofNat 125])) =
    some (Json.jobj ((("strictMode", Json.jbool b) :: acc).reverse), []) := by
  cases b <;>
    simp [parseObjRest, parseStrBody, parseVal, jsonWs, stringifyChars]

lemma stringifyChars_obj (ms : List (String × Json)) :
    stringifyChars (.jobj ms) =
      Char.ofNat 123 :: (stringifyMembers ms ++ [Char.ofNat 125]) := by
  simp [stringifyChars]

lemma stringifyChars_num (raw : String) :
    stringifyChars (.jnum raw) = raw.data := by
  simp [stringifyChars]

lemma stringifyMembers_cons2 (k : String) (v : Json) (m2 : String × Json)
    (rest : List (String × Json)) :
    stringifyMembers ((k, v) :: m2 :: rest) =
      '"' :: k.data.flatMap escapeChar ++ '"' :: ':' :: stringifyChars v ++
        ',' :: stringifyMembers (m2 :: rest) := by
  simp [stringifyMembers]

lemma stringifyMembers_single (k : String) (v : Json) :
    stringifyMembers [(k, v)] =
      '"' :: k.data.flatMap escapeChar ++ '"' :: ':' :: stringifyChars v := by
  simp [stringifyMembers]

/-- The serialized `adBlockStats` object parses back to exactly the value
that was saved. -/
lemma parseVal_adBlock (s : AdBlockStats) (g : Nat) :
    parseVal (g + 6) (stringifyChars (adBlockToJson s)) =
      some (adBlockToJson s, []) := by
  obtain ⟨en, tb, sb, sm⟩ := s
  have hnts : ∀ x, (natToStr x).data = natChars x := fun _ => rfl
  simp only [adBlockToJson, stringifyChars_obj, stringifyMembers_cons2,
    stringifyMembers_single, stringifyChars_num, hnts,
    show ("enabled" : String).data.flatMap escapeChar = "enabled".data from rfl,
    show ("totalBlocked" : String).data.flatMap escapeChar =
      "totalBlocked".data from rfl,
    show ("sessionBlocked" : String).data.flatMap escapeChar =
      "sessionBlocked".data from rfl,
    show ("strictMode" : String).data.flatMap escapeChar =
      "strictMode".data from rfl]
  simp only [List.cons_append, List.append_assoc, List.nil_append]
  rw [show g + 6 = (g + 5) + 1 from rfl, parseVal_openBrace]
  rw [show g + 5 = (g + 3) + 2 from rfl, parseObjFirst_enabled]
  rw [show (g + 3) + 1 = (g + 2) + 2 from rfl, parseObjRest_totalBlocked]
  rw [show (g + 2) + 1 = (g + 1) + 2 from rfl, parseObjRest_sessionBlocked]
  rw [show (g + 1) + 1 = g + 2 from rfl, parseObjRest_strictMode]
  rfl

lemma parseJson_stringify_adBlock (s : AdBlockStats) :
    parseJson (savePersistent (adBlockToJson s)) = some (adBlockToJson s) := by
  unfold savePersistent stringifyJson parseJson
  rw [show (String.mk (stringifyChars (adBlockToJson s))).data =
    stringifyChars (adBlockToJson s) from rfl]
  rw [show 4 * (stringifyChars (adBlockToJson s)).length + 8 =
    (4 * (stringifyChars (adBlockToJson s)).length + 2) + 6 from rfl]
  rw [parseVal_adBlock]
  rfl

lemma savePersistent_adBlock_ne_empty (s : AdBlockStats) :
    savePersistent (adBlockToJson s) ≠ "" := by
  unfold savePersistent stringifyJson adBlockToJson
  intro h
  have h2 := congrArg String.data h
  rw [show (String.mk (stringifyChars (Json.jobj
    [("enabled", Json.jbool s.enabled),
     ("totalBlocked", Json.jnum (natToStr s.totalBlocked)),
     ("sessionBlocked", Json.jnum (natToStr s.sessionBlocked)),
     ("strictMode", Json.jbool s.strictMode)]))).data =
      stringifyChars (Json.jobj
    [("enabled", Json.jbool s.enabled),
     ("totalBlocked", Json.jnum (natToStr s.totalBlocked)),
     ("sessionBlocked", Json.jnum (natToStr s.sessionBlocked)),
     ("strictMode", Json.jbool s.strictMode)]) from rfl,
    stringifyChars_obj] at h2
  cases h2

/-- Claim C10: Persistent Store round trip: saving the `adBlockStats` value
through `JSON.stringify` and loading the serialized form back yields the
value unchanged — in particular the observed `totalBlocked` equals the stored
one — and when deserialization of a stored string fails, the load returns
the supplied default without raising an error. -/
theorem c10_persist_round_trip (s : AdBlockStats) (d : Json) (doc : String)
    (hdoc : parseJson doc = none) :
    loadPersistent (some (savePersistent (adBlockToJson s))) d =
      adBlockToJson s ∧
    getField (loadPersistent (some (savePersistent (adBlockToJson s))) d)
      "totalBlocked" = some (Json.jnum (natToStr s.totalBlocked)) ∧
    loadPersistent (some doc) d = d := by
  have hload : loadPersistent (some (savePersistent (adBlockToJson s))) d =
      adBlockToJson s := by
    unfold loadPersistent
    dsimp only
    rw [if_neg (savePersistent_adBlock_ne_empty s),
      parseJson_stringify_adBlock]
  refine ⟨hload, ?_, ?_⟩
  · rw [hload]
    rfl
  · unfold loadPersistent
    dsimp only
    by_cases hne : doc = ""
    · rw [if_pos hne]
    · rw [if_neg hne, hdoc]

theorem c10_persist_round_trip_witness :
    parseJson "not json" = none ∧
    (loadPersistent (some (savePersistent (adBlockToJson ⟨true, 5, 0, false⟩)))
        Json.jnull = adBlockToJson ⟨true, 5, 0, false⟩ ∧
     getField (loadPersistent
        (some (savePersistent (adBlockToJson ⟨true, 5, 0, false⟩))) Json.jnull)
        "totalBlocked" = some (Json.jnum (natToStr 5)) ∧
     loadPersistent (some "not json") Json.jnull = Json.jnull) :=
  ⟨rfl, c10_persist_round_trip ⟨true, 5, 0, false⟩ Json.jnull "not json" rfl⟩
